import Mathlib

/-!
Shallow embedding of `src/pipelined/bevy_sprite2/src/render/mod.rs`
(sprite extraction, batching/preparation, queuing and draw execution).
Scalars that are `f32` in the source are modelled as rationals; `usize`
and `u32` arithmetic that can wrap is reduced modulo the word size.
-/

/-- Two-component vector (`bevy_math::Vec2`, f32 components modelled as ℚ). -/
structure V2 where
  x : ℚ
  y : ℚ
  deriving Repr, DecidableEq

/-- Three-component vector (`bevy_math::Vec3`). -/
structure V3 where
  x : ℚ
  y : ℚ
  z : ℚ
  deriving Repr, DecidableEq

/-- Four-component vector (`bevy_math::Vec4`). -/
structure V4 where
  x : ℚ
  y : ℚ
  z : ℚ
  w : ℚ
  deriving Repr, DecidableEq

/-- Componentwise division, as glam's `Div for Vec2` used in `prepare_sprites`. -/
def V2.cdiv (a b : V2) : V2 :=
  ⟨a.x / b.x, a.y / b.y⟩

def V4.scale (c : ℚ) (v : V4) : V4 :=
  ⟨c * v.x, c * v.y, c * v.z, c * v.w⟩

def V4.add (a b : V4) : V4 :=
  ⟨a.x + b.x, a.y + b.y, a.z + b.z, a.w + b.w⟩

/-- Column-major 4×4 matrix (`bevy_math::Mat4`). -/
structure Mat4 where
  xAxis : V4
  yAxis : V4
  zAxis : V4
  wAxis : V4
  deriving Repr, DecidableEq

/-- `Mat4 * Vec4` (linear combination of the columns, as in glam). -/
def Mat4.mulV4 (m : Mat4) (v : V4) : V4 :=
  (V4.scale v.x m.xAxis).add ((V4.scale v.y m.yAxis).add
    ((V4.scale v.z m.zAxis).add (V4.scale v.w m.wAxis)))

/-- The identity matrix (`Mat4::IDENTITY`). -/
def Mat4.identityM : Mat4 :=
  ⟨⟨1, 0, 0, 0⟩, ⟨0, 1, 0, 0⟩, ⟨0, 0, 1, 0⟩, ⟨0, 0, 0, 1⟩⟩

/-- Axis-aligned rectangle in source-image pixel space (`crate::Rect`). -/
structure Rect where
  min : V2
  max : V2
  deriving Repr, DecidableEq

/-- Modelled from the spec: `Rect::size` lives in the sprite crate outside
`src/`; §4.2 scales the local corner by `(rect.width, rect.height, 1)`,
so the size is `max - min` componentwise. -/
def Rect.size (r : Rect) : V2 :=
  ⟨r.max.x - r.min.x, r.max.y - r.min.y⟩

/-- `ExtractedSprite` record produced by extraction (mod.rs lines 148-154).
The texture handle is modelled by its identity (a natural number). -/
structure ExtractedSprite where
  transform : Mat4
  rect : Rect
  handle : ℕ
  atlas_size : Option V2
  vertex_index : ℕ
  deriving Repr, DecidableEq

/-- GPU vertex record (`SpriteVertex`, mod.rs lines 215-220). -/
structure SpriteVertex where
  position : V3
  uv : V2
  deriving Repr, DecidableEq

/-- Modelled from the spec: the unit quad template held in `SpriteMeta.quad`
is produced by the external mesh module (`bevy_render2::mesh::shape::Quad`,
not under `src/`). §4.2: four corner positions of a unit quad in local
space, winding order bottom-left, top-left, top-right, bottom-right. -/
def QUAD_VERTEX_POSITIONS : List V3 :=
  [⟨-(1/2 : ℚ), -(1/2 : ℚ), 0⟩, ⟨-(1/2 : ℚ), 1/2, 0⟩,
   ⟨1/2, 1/2, 0⟩, ⟨1/2, -(1/2 : ℚ), 0⟩]

/-- Modelled from the spec: the six u32 quad indices (two triangles over
the four corners) of the external unit quad mesh. -/
def QUAD_INDEX_LIST : List ℕ :=
  [0, 2, 1, 0, 3, 2]

def U64MOD : ℕ := 2 ^ 64

def U32MOD : ℕ := 2 ^ 32

/-- The four atlas-space corner anchors computed from `rect`
(mod.rs lines 286-291): bottom-left `(min.x, max.y)`, top-left `min`,
top-right `(max.x, min.y)`, bottom-right `max`. -/
def atlasPositions (r : Rect) : List V2 :=
  [⟨r.min.x, r.max.y⟩, r.min, ⟨r.max.x, r.min.y⟩, r.max]

/-- The UV divisor: `atlas_size` when present, else `rect.max`
(mod.rs line 301, `unwrap_or`). -/
def uvDivisor (s : ExtractedSprite) : V2 :=
  s.atlas_size.getD s.rect.max

/-- One output vertex of `prepare_sprites` for sprite `s` and quad corner
`vp` paired with atlas anchor `anchor` (mod.rs lines 294-304): the local
corner is scaled by `(rect.width, rect.height, 1)`, transformed by the
sprite's matrix, and the anchor is divided by the UV divisor. -/
def mkSpriteVertex (s : ExtractedSprite) (vp : V3) (anchor : V2) : SpriteVertex :=
  let scaled : V3 := ⟨vp.x * s.rect.size.x, vp.y * s.rect.size.y, vp.z * 1⟩
  let fp : V4 := s.transform.mulV4 ⟨scaled.x, scaled.y, scaled.z, 1⟩
  { position := ⟨fp.x, fp.y, fp.z⟩
    uv := (anchor.cdiv (uvDivisor s)) }

/-- The four vertices pushed for one sprite, in quad-corner order. -/
def spriteVertices (s : ExtractedSprite) : List SpriteVertex :=
  (QUAD_VERTEX_POSITIONS.zip (atlasPositions s.rect)).map
    (fun p => mkSpriteVertex s p.1 p.2)

/-- The six u32 index values pushed for sprite slot `i`
(mod.rs lines 306-310): `(i * quad_vertex_positions.len()) as u32 + *index`,
with the `usize` product wrapping at 2^64, the cast truncating to 32 bits
and the `u32` addition wrapping at 2^32. -/
def spriteIndices (i : ℕ) : List ℕ :=
  QUAD_INDEX_LIST.map (fun idx => ((i * QUAD_VERTEX_POSITIONS.length) % U64MOD % U32MOD + idx) % U32MOD)

/-- Result of `prepare_sprites`: the extracted records with their
`vertex_index` rewritten, the vertex/index buffer contents, and whether
the buffers were resized and uploaded this frame. -/
structure PrepareOutput where
  sprites : List ExtractedSprite
  vertices : List SpriteVertex
  indices : List ℕ
  buffersWritten : Bool
  deriving Repr, DecidableEq

/-- The `for (i, mut extracted_sprite) in ... enumerate()` loop of
`prepare_sprites` (mod.rs lines 282-311), starting at slot `i`. -/
def prepareLoop (i : ℕ) : List ExtractedSprite → List ExtractedSprite × List SpriteVertex × List ℕ
  | [] => ([], [], [])
  | s :: rest =>
    let r := prepareLoop (i + 1) rest
    ({ s with vertex_index := i } :: r.1,
     spriteVertices s ++ r.2.1,
     spriteIndices i ++ r.2.2)

/-- `prepare_sprites` (mod.rs lines 244-315): early-return on an empty
extracted set, otherwise clear and refill both shared buffers. -/
def prepare_sprites (extracted : List ExtractedSprite) : PrepareOutput :=
  if extracted.length = 0 then
    { sprites := extracted, vertices := [], indices := [], buffersWritten := false }
  else
    let r := prepareLoop 0 extracted
    { sprites := r.1, vertices := r.2.1, indices := r.2.2, buffersWritten := true }

/-! ## Extraction -/

/-- Sprite component (`crate::Sprite`): only the `custom_size` field is
read by `extract_sprites`. -/
structure Sprite where
  custom_size : Option V2
  deriving Repr, DecidableEq

/-- Image asset: only `texture_descriptor.size` (width, height in pixels)
is read by `extract_sprites`. -/
structure Image where
  width : ℕ
  height : ℕ
  deriving Repr, DecidableEq

/-- One row of the plain-sprite query
`(Entity, &Sprite, &GlobalTransform, &Handle<Image>)`; the world matrix
`compute_matrix()` is external, so the row carries the matrix itself. -/
structure SpriteRow where
  entity : ℕ
  sprite : Sprite
  transform : Mat4
  handle : ℕ
  deriving Repr, DecidableEq

/-- `extract_sprites` (mod.rs lines 185-213): for each row whose image is
resolved, emit an `ExtractedSprite` with `rect = (0,0) .. (custom_size ??
native size)`, no atlas size and `vertex_index` initialised to 0; rows
whose image asset is not resolved are skipped. -/
def extract_sprites (images : ℕ → Option Image) : List SpriteRow → List (ℕ × ExtractedSprite)
  | [] => []
  | row :: rest =>
    match images row.handle with
    | none => extract_sprites images rest
    | some img =>
      (row.entity,
        { atlas_size := none
          transform := row.transform
          rect := { min := ⟨0, 0⟩
                    max := row.sprite.custom_size.getD ⟨(img.width : ℚ), (img.height : ℚ)⟩ }
          handle := row.handle
          vertex_index := 0 }) :: extract_sprites images rest

/-- Texture atlas asset (`crate::texture_atlas::TextureAtlas`): full size,
sub-rect table, and the handle of the backing texture. -/
structure TextureAtlas where
  size : V2
  textures : List Rect
  texture : ℕ
  deriving Repr, DecidableEq

/-- Atlas sprite component: the sub-rect index. -/
structure TextureAtlasSprite where
  index : ℕ
  deriving Repr, DecidableEq

/-- One row of the atlas query
`(Entity, &TextureAtlasSprite, &GlobalTransform, &Handle<TextureAtlas>)`. -/
structure AtlasRow where
  entity : ℕ
  sprite : TextureAtlasSprite
  transform : Mat4
  atlas_handle : ℕ
  deriving Repr, DecidableEq

/-- `extract_atlases` (mod.rs lines 156-183): rows whose atlas asset is not
loaded are skipped silently; for a loaded atlas the sub-rect table is
indexed with `atlas_sprite.index as usize` without a bounds check
(`texture_atlas.textures[...]`, line 169), so an out-of-range index is a
Rust `Vec` indexing panic, modelled as `none` (the frame aborts). -/
def extract_atlases (atlases : ℕ → Option TextureAtlas) :
    List AtlasRow → Option (List (ℕ × ExtractedSprite))
  | [] => some []
  | row :: rest =>
    match atlases row.atlas_handle with
    | none => extract_atlases atlases rest
    | some ta =>
      if h : row.sprite.index < ta.textures.length then
        (extract_atlases atlases rest).map (fun l =>
          (row.entity,
            { atlas_size := some ta.size
              transform := row.transform
              rect := ta.textures.get ⟨row.sprite.index, h⟩
              handle := ta.texture
              vertex_index := 0 }) :: l)
      else
        none

/-! ## Queuing (bind-group cache + transparency phase) -/

/-- A queued draw item (`Transparent2d` as filled in by `queue_sprites`,
mod.rs lines 366-371): draw-function id, pipeline id, entity, and the
texture handle as sort key. -/
structure Transparent2d where
  draw_function : ℕ
  pipeline : ℕ
  entity : ℕ
  sort_key : ℕ
  deriving Repr, DecidableEq

/-- The material bind-group cache (`ImageBindGroups`): an association from
texture-handle identity to bind-group identity, plus a counter from which
fresh bind-group identities are drawn on creation. -/
structure ImageBindGroups where
  values : List (ℕ × ℕ)
  fresh : ℕ
  deriving Repr, DecidableEq

/-- Cache lookup (first entry with the given handle, as a `HashMap` with
unique keys). -/
def cacheLookup (values : List (ℕ × ℕ)) (h : ℕ) : Option ℕ :=
  (values.find? (fun p => p.1 = h)).map Prod.snd

/-- `image_bind_groups.values.entry(handle).or_insert_with(...)`
(mod.rs lines 346-365): if the handle is cached, do nothing; otherwise
look up the GPU image (`gpu_images.get(..).unwrap()` — a panic, modelled
`none`, when absent) and insert a freshly created bind group. -/
def getOrCreateBindGroup (gpu_images : ℕ → Option ℕ) (c : ImageBindGroups) (h : ℕ) :
    Option ImageBindGroups :=
  match cacheLookup c.values h with
  | some _ => some c
  | none =>
    match gpu_images h with
    | some _ => some { values := c.values ++ [(h, c.fresh)], fresh := c.fresh + 1 }
    | none => none

/-- Inner loop of `queue_sprites` over the extracted sprites for one view:
threads the bind-group cache and collects the draw items added to the
view's transparency phase. -/
def queueSpritesLoop (gpu_images : ℕ → Option ℕ) (draw_fn pipeline_id : ℕ)
    (c : ImageBindGroups) :
    List (ℕ × ExtractedSprite) → Option (ImageBindGroups × List Transparent2d)
  | [] => some (c, [])
  | (e, s) :: rest =>
    match getOrCreateBindGroup gpu_images c s.handle with
    | none => none
    | some c1 =>
      match queueSpritesLoop gpu_images draw_fn pipeline_id c1 rest with
      | none => none
      | some (c2, items) =>
        some (c2, { draw_function := draw_fn, pipeline := pipeline_id,
                    entity := e, sort_key := s.handle } :: items)

/-- Outer loop of `queue_sprites` over the views: each view's transparency
phase receives one item per extracted sprite, appended to its existing
items. -/
def queueViewsLoop (gpu_images : ℕ → Option ℕ) (draw_fn pipeline_id : ℕ)
    (sprites : List (ℕ × ExtractedSprite)) (c : ImageBindGroups) :
    List (List Transparent2d) → Option (ImageBindGroups × List (List Transparent2d))
  | [] => some (c, [])
  | phase :: rest =>
    match queueSpritesLoop gpu_images draw_fn pipeline_id c sprites with
    | none => none
    | some (c1, items) =>
      match queueViewsLoop gpu_images draw_fn pipeline_id sprites c1 rest with
      | none => none
      | some (c2, phases) => some (c2, (phase ++ items) :: phases)

/-- Result of `queue_sprites`: the updated cache, the per-view phases, and
whether the per-view uniform bind group was (re)built. -/
structure QueueOutput where
  cache : ImageBindGroups
  phases : List (List Transparent2d)
  viewBindGroupBuilt : Bool
  deriving Repr, DecidableEq

/-- `queue_sprites` (mod.rs lines 323-375): if no view-uniform binding is
available the whole body is skipped; otherwise the view bind group is
rebuilt and every view's phase receives one item per extracted sprite,
creating material bind groups on cache misses. `none` models a panic
(missing GPU image or missing draw-function id). -/
def queue_sprites (view_binding_present : Bool) (gpu_images : ℕ → Option ℕ)
    (draw_fn pipeline_id : ℕ) (c : ImageBindGroups)
    (sprites : List (ℕ × ExtractedSprite)) (views : List (List Transparent2d)) :
    Option QueueOutput :=
  if view_binding_present then
    match queueViewsLoop gpu_images draw_fn pipeline_id sprites c views with
    | none => none
    | some (c1, phases) =>
      some { cache := c1, phases := phases, viewBindGroupBuilt := true }
  else
    some { cache := c, phases := views, viewBindGroupBuilt := false }

/-! ## Draw execution -/

/-- A GPU command recorded on the tracked render pass by
`DrawSprite::draw`. `drawIndexed` carries the index range, the base
vertex and the instance range. -/
inductive GpuCommand where
  | setRenderPipeline (pipeline : ℕ)
  | setVertexBuffer (slot : ℕ)
  | setIndexBuffer
  | setBindGroup (slot : ℕ) (dynamicOffsets : List ℕ)
  | drawIndexed (idxStart idxEnd : ℕ) (baseVertex : ℤ) (instStart instEnd : ℕ)
  deriving Repr, DecidableEq

def GpuCommand.isDrawIndexed : GpuCommand → Bool
  | .drawIndexed _ _ _ _ _ => true
  | _ => false

/-- `DrawSprite::draw` (mod.rs lines 396-438). The view-uniform offset and
the extracted record are resolved with `unwrap` BEFORE the pipeline check,
so either being absent is a panic (`none`). If the pipeline id does not
resolve to a compiled pipeline the body is skipped (no commands). With a
compiled pipeline, the pass binds pipeline, vertex buffer slot 0, u32
index buffer, view bind group with the dynamic offset, material bind
group, then issues `draw_indexed` over
`(vertex_index * 6) as u32 .. (vertex_index * 6 + 6) as u32`, base vertex
0, instances `0..1`. -/
def DrawSprite.draw (view_uniform_offset : Option ℕ)
    (extracted_sprite : Option ExtractedSprite) (compiled_pipeline : Option ℕ) :
    Option (List GpuCommand) :=
  match view_uniform_offset, extracted_sprite with
  | some off, some s =>
    some (match compiled_pipeline with
      | some p =>
        [.setRenderPipeline p, .setVertexBuffer 0, .setIndexBuffer,
         .setBindGroup 0 [off], .setBindGroup 1 [],
         .drawIndexed ((s.vertex_index * 6) % U64MOD % U32MOD)
           ((s.vertex_index * 6 + 6) % U64MOD % U32MOD) 0 0 1]
      | none => [])
  | _, _ => none

/-! ## Whole-frame composition (extraction then preparation) -/

/-- A scene snapshot: the two queries and the two asset stores read by the
extraction systems. -/
structure Scene where
  atlases : ℕ → Option TextureAtlas
  images : ℕ → Option Image
  atlasRows : List AtlasRow
  spriteRows : List SpriteRow

/-- Modelled from the spec: per §4.1 extraction "replaces the entire
previous frame's extracted set" (the render world is cleared between
frames and `insert_or_spawn_batch` rebuilds it), so the post-extraction
set is a function of the scene alone, the atlas entities followed by the
plain-sprite entities. `none` models the atlas indexing panic. -/
def extractFrame (scene : Scene) : Option (List (ℕ × ExtractedSprite)) :=
  (extract_atlases scene.atlases scene.atlasRows).map
    (fun a => a ++ extract_sprites scene.images scene.spriteRows)

/-- One extraction+preparation run: takes the previous frame's extracted
set (which extraction replaces), returns the new set (with the
`vertex_index` values written by preparation) and the buffer contents. -/
def runFrame (scene : Scene) (_prev : List (ℕ × ExtractedSprite)) :
    Option (List (ℕ × ExtractedSprite) × PrepareOutput) :=
  (extractFrame scene).map (fun es =>
    let p := prepare_sprites (es.map Prod.snd)
    ((es.map Prod.fst).zip p.sprites, p))

/-! ## Helper lemmas about preparation -/

theorem spriteVertices_length (s : ExtractedSprite) : (spriteVertices s).length = 4 := rfl

theorem spriteIndices_length (i : ℕ) : (spriteIndices i).length = 6 := rfl

theorem spriteIndices_lt (i : ℕ) : ∀ x ∈ spriteIndices i, x < 4 * i + 4 := by
  intro x hx
  rw [spriteIndices] at hx
  obtain ⟨idx, hidx, rfl⟩ := List.mem_map.mp hx
  have hidx4 : idx < 4 := by
    simp [QUAD_INDEX_LIST] at hidx
    rcases hidx with h | h | h | h <;> omega
  calc ((i * QUAD_VERTEX_POSITIONS.length) % U64MOD % U32MOD + idx) % U32MOD
      ≤ (i * QUAD_VERTEX_POSITIONS.length) % U64MOD % U32MOD + idx := Nat.mod_le _ _
    _ ≤ (i * QUAD_VERTEX_POSITIONS.length) % U64MOD + idx := by
        have := Nat.mod_le ((i * QUAD_VERTEX_POSITIONS.length) % U64MOD) U32MOD
        omega
    _ ≤ i * QUAD_VERTEX_POSITIONS.length + idx := by
        have := Nat.mod_le (i * QUAD_VERTEX_POSITIONS.length) U64MOD
        omega
    _ = i * 4 + idx := by rfl
    _ < 4 * i + 4 := by omega

theorem prepareLoop_sprites_length (i : ℕ) (l : List ExtractedSprite) :
    (prepareLoop i l).1.length = l.length := by
  induction l generalizing i with
  | nil => rfl
  | cons s rest ih => simp [prepareLoop, ih]

theorem prepareLoop_vertices_length (i : ℕ) (l : List ExtractedSprite) :
    (prepareLoop i l).2.1.length = 4 * l.length := by
  induction l generalizing i with
  | nil => rfl
  | cons s rest ih =>
    simp [prepareLoop, spriteVertices_length, ih]
    omega

theorem prepareLoop_indices_length (i : ℕ) (l : List ExtractedSprite) :
    (prepareLoop i l).2.2.length = 6 * l.length := by
  induction l generalizing i with
  | nil => rfl
  | cons s rest ih =>
    simp [prepareLoop, spriteIndices_length, ih]
    omega

theorem prepareLoop_indices_lt (i : ℕ) (l : List ExtractedSprite) :
    ∀ x ∈ (prepareLoop i l).2.2, x < 4 * (i + l.length) := by
  induction l generalizing i with
  | nil => simp [prepareLoop]
  | cons s rest ih =>
    intro x hx
    rw [prepareLoop] at hx
    rcases List.mem_append.mp hx with hx | hx
    · have := spriteIndices_lt i x hx
      simp only [List.length_cons]
      omega
    · have := ih (i + 1) x hx
      simp only [List.length_cons]
      omega

theorem prepare_sprites_sprites_length (l : List ExtractedSprite) :
    (prepare_sprites l).sprites.length = l.length := by
  rw [prepare_sprites]
  split
  · rfl
  · exact prepareLoop_sprites_length 0 l

/-- C1: for every frame with N ≥ 1 extracted sprites, preparation fills the
vertex buffer with exactly 4N `SpriteVertex` records and the index buffer
with exactly 6N u32 values, every one of which is < 4N. -/
theorem c1_buffer_counts_and_index_range (l : List ExtractedSprite) (h : 1 ≤ l.length) :
    (prepare_sprites l).vertices.length = 4 * l.length ∧
    (prepare_sprites l).indices.length = 6 * l.length ∧
    ∀ x ∈ (prepare_sprites l).indices, x < 4 * l.length := by
  rw [prepare_sprites]
  split
  · omega
  · refine ⟨prepareLoop_vertices_length 0 l, prepareLoop_indices_length 0 l, ?_⟩
    intro x hx
    have := prepareLoop_indices_lt 0 l x hx
    omega

def c1Sprite : ExtractedSprite :=
  { transform := Mat4.identityM
    rect := { min := ⟨0, 0⟩, max := ⟨16, 16⟩ }
    handle := 1
    atlas_size := none
    vertex_index := 0 }

theorem c1_witness :
    1 ≤ ([c1Sprite] : List ExtractedSprite).length ∧
    ((prepare_sprites [c1Sprite]).vertices.length = 4 * ([c1Sprite] : List ExtractedSprite).length ∧
     (prepare_sprites [c1Sprite]).indices.length = 6 * ([c1Sprite] : List ExtractedSprite).length ∧
     ∀ x ∈ (prepare_sprites [c1Sprite]).indices, x < 4 * ([c1Sprite] : List ExtractedSprite).length) :=
  ⟨by decide, c1_buffer_counts_and_index_range [c1Sprite] (by decide)⟩

theorem prepareLoop_sprites_get (l : List ExtractedSprite) (i k : ℕ)
    (hk : k < (prepareLoop i l).1.length) :
    ((prepareLoop i l).1.get ⟨k, hk⟩).vertex_index = i + k := by
  induction l generalizing i k with
  | nil => simp [prepareLoop] at hk
  | cons s rest ih =>
    cases k with
    | zero => simp [prepareLoop]
    | succ k =>
      have hk2 : k < (prepareLoop (i + 1) rest).1.length := by
        rw [prepareLoop_sprites_length] at hk ⊢
        simpa using Nat.lt_of_succ_lt_succ hk
      have := ih (i + 1) k hk2
      simp only [prepareLoop, List.get_cons_succ] at *
      omega

theorem prepare_sprites_sprites_eq (l : List ExtractedSprite) :
    (prepare_sprites l).sprites = (prepareLoop 0 l).1 := by
  rw [prepare_sprites]
  split
  · rename_i hz
    rcases List.length_eq_zero.mp hz
    rfl
  · rfl

/-- C2: preparation assigns the sprite at extraction-list position i the
batch index (`vertex_index`) i, for every i below the sprite count. -/
theorem c2_batch_index_is_position (l : List ExtractedSprite) (i : ℕ)
    (h : i < (prepare_sprites l).sprites.length) :
    (prepare_sprites l).sprites.length = l.length ∧
    ((prepare_sprites l).sprites.get ⟨i, h⟩).vertex_index = i := by
  refine ⟨prepare_sprites_sprites_length l, ?_⟩
  have hl := prepare_sprites_sprites_eq l
  rw [List.get_of_eq hl ⟨i, h⟩]
  simpa using prepareLoop_sprites_get l 0 i (by rw [← hl]; exact h)

theorem c2_witness :
    0 < (prepare_sprites [c1Sprite, c1Sprite]).sprites.length ∧
    ((prepare_sprites [c1Sprite, c1Sprite]).sprites.length = 2 ∧
     ((prepare_sprites [c1Sprite, c1Sprite]).sprites.get ⟨1, by decide⟩).vertex_index = 1) :=
  ⟨by decide, c2_batch_index_is_position [c1Sprite, c1Sprite] 1 (by decide)⟩

/-! ## The written UVs (C4) -/

/-- The spec's atlas-space corner anchor for corner j of `rect`, in the
defined corner order bottom-left, top-left, top-right, bottom-right
(spec §4.2 step 3b). -/
def atlasAnchor (r : Rect) (j : Fin 4) : V2 :=
  if j.1 = 0 then ⟨r.min.x, r.max.y⟩
  else if j.1 = 1 then r.min
  else if j.1 = 2 then ⟨r.max.x, r.min.y⟩
  else r.max

/-- The spec's prescription for the UV of corner j: the corresponding
atlas-space anchor divided componentwise by `atlas_size` when present,
else by `rect.max` (spec §4.2 step 3c). -/
def specCornerUV (s : ExtractedSprite) (j : Fin 4) : V2 :=
  match s.atlas_size with
  | some a => (atlasAnchor s.rect j).cdiv a
  | none => (atlasAnchor s.rect j).cdiv s.rect.max

theorem spriteVertices_get (s : ExtractedSprite) (j : ℕ) (hj : j < (spriteVertices s).length) :
    (spriteVertices s).get ⟨j, hj⟩ =
      mkSpriteVertex s
        (QUAD_VERTEX_POSITIONS.get ⟨j, by rw [spriteVertices_length] at hj; exact hj⟩)
        ((atlasPositions s.rect).get ⟨j, by rw [spriteVertices_length] at hj; exact hj⟩) := by
  rw [spriteVertices_length] at hj
  have h4 : j = 0 ∨ j = 1 ∨ j = 2 ∨ j = 3 := by omega
  rcases h4 with rfl | rfl | rfl | rfl <;> rfl


theorem prepareLoop_vertices_get (l : List ExtractedSprite) (i k j : ℕ)
    (hk : k < l.length) (hj : j < 4) (hb : 4 * k + j < (prepareLoop i l).2.1.length) :
    (prepareLoop i l).2.1[4 * k + j] =
      (spriteVertices l[k]).get ⟨j, by rw [spriteVertices_length]; exact hj⟩ := by
  induction l generalizing i k with
  | nil => simp at hk
  | cons s rest ih =>
    cases k with
    | zero =>
      simp only [Nat.mul_zero, Nat.zero_add] at hb ⊢
      simp only [prepareLoop]
      rw [List.getElem_append_left (by rw [spriteVertices_length]; exact hj)]
      simp only [List.getElem_cons_zero, List.get_eq_getElem]
    | succ k =>
      have hk2 : k < rest.length := by simpa using Nat.lt_of_succ_lt_succ hk
      have hb2 : 4 * k + j < (prepareLoop (i + 1) rest).2.1.length := by
        rw [prepareLoop_vertices_length]
        omega
      simp only [prepareLoop]
      rw [List.getElem_append_right (by rw [spriteVertices_length]; omega)]
      have hidx : 4 * (k + 1) + j - (spriteVertices s).length = 4 * k + j := by
        rw [spriteVertices_length]; omega
      simp only [hidx, List.getElem_cons_succ]
      exact ih (i + 1) k hk2 hb2

theorem prepare_sprites_vertices_eq (l : List ExtractedSprite) :
    (prepare_sprites l).vertices = (prepareLoop 0 l).2.1 := by
  rw [prepare_sprites]
  split
  · rename_i hz
    rcases List.length_eq_zero.mp hz
    rfl
  · rfl

theorem prepare_sprites_indices_eq (l : List ExtractedSprite) :
    (prepare_sprites l).indices = (prepareLoop 0 l).2.2 := by
  rw [prepare_sprites]
  split
  · rename_i hz
    rcases List.length_eq_zero.mp hz
    rfl
  · rfl

theorem spriteVertices_uv (s : ExtractedSprite) (j : Fin 4) :
    ((spriteVertices s).get ⟨j.1, by rw [spriteVertices_length]; exact j.2⟩).uv =
      specCornerUV s j := by
  rcases s with ⟨t, r, hd, a?, vi⟩
  rcases a? with _ | a <;> fin_cases j <;> rfl

/-- C4: for every extracted sprite and each of its four corner anchors, the
UV written to the vertex buffer equals that anchor divided componentwise by
`atlas_size` when present, else by `rect.max`. -/
theorem c4_uv_formula (l : List ExtractedSprite) (k : ℕ) (j : Fin 4)
    (hk : k < l.length) (hb : 4 * k + j.1 < (prepare_sprites l).vertices.length) :
    ((prepare_sprites l).vertices[4 * k + j.1]).uv = specCornerUV l[k] j := by
  have he := prepare_sprites_vertices_eq l
  have hb2 : 4 * k + j.1 < (prepareLoop 0 l).2.1.length := he ▸ hb
  have hgoal : (prepare_sprites l).vertices[4 * k + j.1] = (prepareLoop 0 l).2.1[4 * k + j.1] := by
    congr 1
  rw [hgoal, prepareLoop_vertices_get l 0 k j.1 hk j.2 hb2]
  exact spriteVertices_uv l[k] j

/-- Concrete atlas sprite of C4's scenario: full atlas size 256×256,
sub-rect (32,32)-(96,96). -/
def c4Sprite : ExtractedSprite :=
  { transform := Mat4.identityM
    rect := { min := ⟨32, 32⟩, max := ⟨96, 96⟩ }
    handle := 2
    atlas_size := some ⟨256, 256⟩
    vertex_index := 0 }

theorem c4_witness :
    ((prepare_sprites [c4Sprite]).vertices.get ⟨4 * 0 + (1 : Fin 4).1, by decide⟩).uv =
      specCornerUV c4Sprite 1 ∧
    specCornerUV c4Sprite 1 = ⟨1 / 8, 1 / 8⟩ :=
  ⟨c4_uv_formula [c4Sprite] 0 1 (by decide) (by decide), by
    simp [specCornerUV, c4Sprite, atlasAnchor, V2.cdiv]
    norm_num⟩

/-! ## Draw-executor claims -/

/-- C3: for a draw item whose pipeline resolved as compiled (and whose view
offset and extracted record are present, as the executor unwraps them),
exactly one indexed draw is issued, over index range
`vertex_index*6 .. vertex_index*6 + 6`, base vertex 0, instances `0..1`;
the side condition keeps the u32 casts of the source from wrapping. -/
theorem c3_draw_indexed_range (off p : ℕ) (s : ExtractedSprite)
    (h : s.vertex_index * 6 + 6 < U32MOD) :
    ∃ cmds, DrawSprite.draw (some off) (some s) (some p) = some cmds ∧
      cmds.filter GpuCommand.isDrawIndexed =
        [.drawIndexed (s.vertex_index * 6) (s.vertex_index * 6 + 6) 0 0 1] := by
  refine ⟨_, rfl, ?_⟩
  have e32 : U32MOD = 4294967296 := by norm_num [U32MOD]
  have e64 : U64MOD = 18446744073709551616 := by norm_num [U64MOD]
  rw [e32] at h
  have hin1 : s.vertex_index * 6 % 18446744073709551616 = s.vertex_index * 6 :=
    Nat.mod_eq_of_lt (by omega)
  have hin2 : (s.vertex_index * 6 + 6) % 18446744073709551616 = s.vertex_index * 6 + 6 :=
    Nat.mod_eq_of_lt (by omega)
  have h1 : s.vertex_index * 6 % U64MOD % U32MOD = s.vertex_index * 6 := by
    rw [e32, e64, hin1, Nat.mod_eq_of_lt (by omega)]
  have h2 : (s.vertex_index * 6 + 6) % U64MOD % U32MOD = s.vertex_index * 6 + 6 := by
    rw [e32, e64, hin2, Nat.mod_eq_of_lt (by omega)]
  simp [GpuCommand.isDrawIndexed, h1, h2]

def c3Sprite : ExtractedSprite :=
  { c1Sprite with vertex_index := 2 }

theorem c3_witness :
    c3Sprite.vertex_index * 6 + 6 < U32MOD ∧
    ∃ cmds, DrawSprite.draw (some 40) (some c3Sprite) (some 9) = some cmds ∧
      cmds.filter GpuCommand.isDrawIndexed =
        [.drawIndexed (c3Sprite.vertex_index * 6) (c3Sprite.vertex_index * 6 + 6) 0 0 1] :=
  ⟨by decide, c3_draw_indexed_range 40 9 c3Sprite (by decide)⟩

/-- C7: a queued item whose pipeline id does not resolve to a compiled
pipeline produces zero GPU commands and no panic, provided the view
uniform offset and the extracted record are present (the source unwraps
those before the pipeline check). -/
theorem c7_uncompiled_pipeline_skips (off : ℕ) (s : ExtractedSprite) :
    DrawSprite.draw (some off) (some s) none = some [] := rfl

/-! ## C5 scenario: one plain 64×64 sprite, identity transform -/

def c5Images : ℕ → Option Image := fun h => if h = 3 then some ⟨64, 64⟩ else none

def c5Row : SpriteRow :=
  { entity := 0, sprite := { custom_size := none }, transform := Mat4.identityM, handle := 3 }

def c5Extracted : ExtractedSprite :=
  { transform := Mat4.identityM
    rect := { min := ⟨0, 0⟩, max := ⟨64, 64⟩ }
    handle := 3
    atlas_size := none
    vertex_index := 0 }

theorem c5_extract_eq : extract_sprites c5Images [c5Row] = [(0, c5Extracted)] := by
  simp [extract_sprites, c5Images, c5Row, c5Extracted]

/-- C5 as stated fails on the code: in the defined corner order the FIRST
corner is bottom-left, whose written UV is (0,1) — the claim's UV list
starts with (0,0). -/
theorem c5_uv_order_counterexample :
    extract_sprites c5Images [c5Row] = [(0, c5Extracted)] ∧
    ((prepare_sprites [c5Extracted]).vertices.get ⟨0, by decide⟩).uv = ⟨0, 1⟩ ∧
    ((prepare_sprites [c5Extracted]).vertices.get ⟨0, by decide⟩).uv ≠ ⟨0, 0⟩ := by
  have huv : ((prepare_sprites [c5Extracted]).vertices.get ⟨0, by decide⟩).uv = ⟨0, 1⟩ := by
    simp [prepare_sprites, prepareLoop, spriteVertices, mkSpriteVertex, c5Extracted,
      QUAD_VERTEX_POSITIONS, atlasPositions, uvDivisor, V2.cdiv]
  refine ⟨c5_extract_eq, huv, fun hc => ?_⟩
  rw [huv] at hc
  simp at hc

/-- C5 amended: extraction yields rect (0,0)-(64,64), and preparation
yields the four corners of a 64×64 square centred per the (identity)
transform with UVs (0,1),(0,0),(1,0),(1,1) in the defined corner order
bottom-left, top-left, top-right, bottom-right. -/
theorem c5_amended_scenario :
    extract_sprites c5Images [c5Row] = [(0, c5Extracted)] ∧
    c5Extracted.rect = { min := ⟨0, 0⟩, max := ⟨64, 64⟩ } ∧
    (prepare_sprites [c5Extracted]).vertices =
      [{ position := ⟨-32, -32, 0⟩, uv := ⟨0, 1⟩ },
       { position := ⟨-32, 32, 0⟩, uv := ⟨0, 0⟩ },
       { position := ⟨32, 32, 0⟩, uv := ⟨1, 0⟩ },
       { position := ⟨32, -32, 0⟩, uv := ⟨1, 1⟩ }] := by
  refine ⟨c5_extract_eq, rfl, ?_⟩
  simp [prepare_sprites, prepareLoop, spriteVertices, mkSpriteVertex, c5Extracted,
    QUAD_VERTEX_POSITIONS, atlasPositions, uvDivisor, V2.cdiv, Mat4.identityM,
    Mat4.mulV4, V4.scale, V4.add, Rect.size]
  norm_num

/-! ## C6: zero-sprite frame -/

theorem queueViewsLoop_nil_sprites (gpu_images : ℕ → Option ℕ) (draw_fn pipeline_id : ℕ)
    (c : ImageBindGroups) (views : List (List Transparent2d)) :
    queueViewsLoop gpu_images draw_fn pipeline_id [] c views = some (c, views) := by
  induction views with
  | nil => rfl
  | cons phase rest ih =>
    simp [queueViewsLoop, queueSpritesLoop, ih]

/-- C6: with zero extracted sprites, preparation performs no buffer
resize or upload and leaves both buffers empty, and queuing adds no draw
item to any view's transparency phase (and leaves the cache untouched)
whether or not a view-uniform binding is available. -/
theorem c6_zero_sprite_frame :
    prepare_sprites [] =
      { sprites := [], vertices := [], indices := [], buffersWritten := false } ∧
    ∀ (vb : Bool) (gpu_images : ℕ → Option ℕ) (draw_fn pipeline_id : ℕ)
      (c : ImageBindGroups) (views : List (List Transparent2d)),
      queue_sprites vb gpu_images draw_fn pipeline_id c [] views =
        some { cache := c, phases := views, viewBindGroupBuilt := vb } := by
  refine ⟨rfl, fun vb gpu_images draw_fn pipeline_id c views => ?_⟩
  cases vb
  · rfl
  · simp [queue_sprites, queueViewsLoop_nil_sprites]

/-! ## C9: extraction + preparation re-run on an unchanged scene -/

/-- C9: re-running extraction and preparation on the unchanged scene,
starting from the state the first run left behind, reproduces exactly the
same extracted set and byte-identical vertex/index buffer contents. -/
theorem c9_rerun_identical (scene : Scene) (st0 st1 : List (ℕ × ExtractedSprite))
    (out1 : PrepareOutput) (h : runFrame scene st0 = some (st1, out1)) :
    runFrame scene st1 = some (st1, out1) := h

def c9Scene : Scene :=
  { atlases := fun _ => none
    images := c5Images
    atlasRows := []
    spriteRows := [c5Row] }

theorem c9_witness :
    runFrame c9Scene [(0, c5Extracted)] =
      some ([(0, c5Extracted)], prepare_sprites [c5Extracted]) := by
  have hs : (prepare_sprites [c5Extracted]).sprites = [c5Extracted] := by
    rw [prepare_sprites_sprites_eq]
    simp [prepareLoop]
    rfl
  have h0 : runFrame c9Scene [] = some ([(0, c5Extracted)], prepare_sprites [c5Extracted]) := by
    rw [runFrame, extractFrame]
    simp [extract_atlases, c9Scene, c5_extract_eq, hs]
  exact c9_rerun_identical c9Scene [] [(0, c5Extracted)] (prepare_sprites [c5Extracted]) h0

/-! ## C10: atlas extraction indexes the sub-rect table unchecked -/

/-- C10: for a loaded atlas, extraction indexes `textures` with the
sprite's index and no bounds check — an out-of-range index aborts the
frame (Rust panic, modelled `none`) — while a not-yet-loaded atlas is
silently skipped. -/
theorem c10_atlas_oob_panics_loaded_only (atlases : ℕ → Option TextureAtlas)
    (rowA rowB : AtlasRow) (restA restB : List AtlasRow) (ta : TextureAtlas) :
    (atlases rowA.atlas_handle = some ta → ta.textures.length ≤ rowA.sprite.index →
      extract_atlases atlases (rowA :: restA) = none) ∧
    (atlases rowB.atlas_handle = none →
      extract_atlases atlases (rowB :: restB) = extract_atlases atlases restB) := by
  constructor
  · intro hload hoob
    rw [extract_atlases, hload]
    simp only [dif_neg (by omega : ¬ rowA.sprite.index < ta.textures.length)]
  · intro hmiss
    rw [extract_atlases, hmiss]

def c10Atlas : TextureAtlas :=
  { size := ⟨8, 8⟩, textures := [{ min := ⟨0, 0⟩, max := ⟨4, 4⟩ }], texture := 2 }

def c10Atlases : ℕ → Option TextureAtlas := fun h => if h = 1 then some c10Atlas else none

def c10RowA : AtlasRow :=
  { entity := 0, sprite := { index := 5 }, transform := Mat4.identityM, atlas_handle := 1 }

def c10RowB : AtlasRow :=
  { entity := 1, sprite := { index := 0 }, transform := Mat4.identityM, atlas_handle := 3 }

theorem c10_witness :
    extract_atlases c10Atlases [c10RowA] = none ∧
    extract_atlases c10Atlases [c10RowB] = extract_atlases c10Atlases [] := by
  have h := c10_atlas_oob_panics_loaded_only c10Atlases c10RowA c10RowB [] [] c10Atlas
  exact ⟨h.1 (by decide) (by decide), h.2 (by decide)⟩

/-! ## C8: bind-group cache lemmas -/

/-- Number of cache entries stored for a given texture identity. -/
def countKey (values : List (ℕ × ℕ)) (h : ℕ) : ℕ :=
  values.countP (fun p => p.1 = h)

theorem cacheLookup_append_some (a b : List (ℕ × ℕ)) (h bg : ℕ)
    (hl : cacheLookup a h = some bg) : cacheLookup (a ++ b) h = some bg := by
  rw [cacheLookup, List.find?_append]
  rw [cacheLookup] at hl
  cases hfa : a.find? (fun p => p.1 = h) with
  | none => rw [hfa] at hl; simp at hl
  | some pr => rw [hfa] at hl; simp [Option.or] at hl ⊢; exact hl

theorem cacheLookup_append_none (a b : List (ℕ × ℕ)) (h : ℕ)
    (hl : cacheLookup a h = none) : cacheLookup (a ++ b) h = cacheLookup b h := by
  rw [cacheLookup, List.find?_append]
  rw [cacheLookup] at hl
  cases hfa : a.find? (fun p => p.1 = h) with
  | none => simp [Option.or, cacheLookup]
  | some pr => rw [hfa] at hl; simp at hl

theorem countKey_append (a b : List (ℕ × ℕ)) (h : ℕ) :
    countKey (a ++ b) h = countKey a h + countKey b h := by
  simp [countKey, List.countP_append]

theorem cacheLookup_none_iff (v : List (ℕ × ℕ)) (h : ℕ) :
    cacheLookup v h = none ↔ countKey v h = 0 := by
  rw [cacheLookup, countKey, Option.map_eq_none', List.find?_eq_none, List.countP_eq_zero]

theorem cacheLookup_single_self (h f : ℕ) : cacheLookup [(h, f)] h = some f := by
  simp [cacheLookup, List.find?]

theorem countKey_single (a f h : ℕ) : countKey [(a, f)] h = if a = h then 1 else 0 := by
  by_cases he : a = h <;> simp [countKey, List.countP_cons, he]

theorem getOrCreateBindGroup_preserve (gpu : ℕ → Option ℕ) (c c1 : ImageBindGroups)
    (h1 h bg : ℕ) (hc : getOrCreateBindGroup gpu c h1 = some c1)
    (hl : cacheLookup c.values h = some bg) : cacheLookup c1.values h = some bg := by
  rw [getOrCreateBindGroup] at hc
  split at hc
  · cases hc; exact hl
  · split at hc
    · cases hc; exact cacheLookup_append_some _ _ _ _ hl
    · cases hc

theorem getOrCreateBindGroup_countKey_le (gpu : ℕ → Option ℕ) (c c1 : ImageBindGroups)
    (h1 h : ℕ) (hc : getOrCreateBindGroup gpu c h1 = some c1)
    (hk : countKey c.values h ≤ 1) : countKey c1.values h ≤ 1 := by
  rw [getOrCreateBindGroup] at hc
  split at hc
  · cases hc; exact hk
  · rename_i hnone
    split at hc
    · cases hc
      rw [countKey_append, countKey_single]
      by_cases he : h1 = h
      · subst he
        have hz : countKey c.values h1 = 0 := (cacheLookup_none_iff _ _).mp hnone
        simp [hz]
      · simp [he]
        exact hk
    · cases hc

theorem getOrCreateBindGroup_lookup_self (gpu : ℕ → Option ℕ) (c c1 : ImageBindGroups)
    (h1 : ℕ) (hc : getOrCreateBindGroup gpu c h1 = some c1) :
    ∃ bg, cacheLookup c1.values h1 = some bg := by
  rw [getOrCreateBindGroup] at hc
  split at hc
  · rename_i bg hsome
    cases hc
    exact ⟨bg, hsome⟩
  · rename_i hnone
    split at hc
    · cases hc
      refine ⟨c.fresh, ?_⟩
      rw [cacheLookup_append_none _ _ _ hnone]
      exact cacheLookup_single_self _ _
    · cases hc

theorem cacheLookup_some_countKey_pos (v : List (ℕ × ℕ)) (h bg : ℕ)
    (hl : cacheLookup v h = some bg) : 1 ≤ countKey v h := by
  by_contra hcon
  have hz : countKey v h = 0 := by omega
  rw [← cacheLookup_none_iff] at hz
  rw [hz] at hl
  cases hl

theorem queueSpritesLoop_cache (gpu_images : ℕ → Option ℕ) (draw_fn pipeline_id : ℕ)
    (sprites : List (ℕ × ExtractedSprite)) :
    ∀ (c c2 : ImageBindGroups) (items : List Transparent2d) (h : ℕ),
      queueSpritesLoop gpu_images draw_fn pipeline_id c sprites = some (c2, items) →
      (∀ bg, cacheLookup c.values h = some bg → cacheLookup c2.values h = some bg) ∧
      (countKey c.values h ≤ 1 → countKey c2.values h ≤ 1) ∧
      (h ∈ sprites.map (fun p => p.2.handle) → ∃ bg, cacheLookup c2.values h = some bg) := by
  induction sprites with
  | nil =>
    intro c c2 items h hq
    rw [queueSpritesLoop] at hq
    cases hq
    exact ⟨fun bg hl => hl, fun hk => hk, by simp⟩
  | cons p rest ih =>
    intro c c2 items h hq
    rw [queueSpritesLoop] at hq
    cases hc1 : getOrCreateBindGroup gpu_images c p.2.handle with
    | none => rw [hc1] at hq; cases hq
    | some c1 =>
      rw [hc1] at hq
      dsimp only at hq
      cases hrest : queueSpritesLoop gpu_images draw_fn pipeline_id c1 rest with
      | none => rw [hrest] at hq; cases hq
      | some pr =>
        obtain ⟨cr, itemsr⟩ := pr
        rw [hrest] at hq
        dsimp only at hq
        cases hq
        obtain ⟨hpres, hcount, hmem⟩ := ih c1 c2 itemsr h hrest
        refine ⟨?_, ?_, ?_⟩
        · intro bg hl
          exact hpres bg (getOrCreateBindGroup_preserve _ _ _ _ _ bg hc1 hl)
        · intro hk
          exact hcount (getOrCreateBindGroup_countKey_le _ _ _ _ _ hc1 hk)
        · intro hin
          rcases List.mem_map.mp hin with ⟨q, hq, hqh⟩
          rcases List.mem_cons.mp hq with rfl | hq2
          · obtain ⟨bg, hbg⟩ := getOrCreateBindGroup_lookup_self _ _ _ _ hc1
            rw [hqh] at hbg
            exact ⟨bg, hpres bg hbg⟩
          · exact hmem (List.mem_map.mpr ⟨q, hq2, hqh⟩)

theorem queueViewsLoop_cache (gpu_images : ℕ → Option ℕ) (draw_fn pipeline_id : ℕ)
    (sprites : List (ℕ × ExtractedSprite)) :
    ∀ (views : List (List Transparent2d)) (c c2 : ImageBindGroups)
      (phases : List (List Transparent2d)) (h : ℕ),
      queueViewsLoop gpu_images draw_fn pipeline_id sprites c views = some (c2, phases) →
      (∀ bg, cacheLookup c.values h = some bg → cacheLookup c2.values h = some bg) ∧
      (countKey c.values h ≤ 1 → countKey c2.values h ≤ 1) ∧
      (views ≠ [] → h ∈ sprites.map (fun p => p.2.handle) →
        ∃ bg, cacheLookup c2.values h = some bg) := by
  intro views
  induction views with
  | nil =>
    intro c c2 phases h hq
    rw [queueViewsLoop] at hq
    cases hq
    exact ⟨fun bg hl => hl, fun hk => hk, fun hne => absurd rfl hne⟩
  | cons phase rest ih =>
    intro c c2 phases h hq
    rw [queueViewsLoop] at hq
    cases hsp : queueSpritesLoop gpu_images draw_fn pipeline_id c sprites with
    | none => rw [hsp] at hq; cases hq
    | some pr1 =>
      obtain ⟨c1, items1⟩ := pr1
      rw [hsp] at hq
      dsimp only at hq
      cases hrest : queueViewsLoop gpu_images draw_fn pipeline_id sprites c1 rest with
      | none => rw [hrest] at hq; cases hq
      | some pr2 =>
        obtain ⟨c2r, phasesr⟩ := pr2
        rw [hrest] at hq
        dsimp only at hq
        cases hq
        obtain ⟨hp1, hc1, hm1⟩ := queueSpritesLoop_cache gpu_images draw_fn pipeline_id
          sprites c c1 items1 h hsp
        obtain ⟨hp2, hc2, hm2⟩ := ih c1 c2 phasesr h hrest
        refine ⟨fun bg hl => hp2 bg (hp1 bg hl), fun hk => hc2 (hc1 hk), ?_⟩
        intro hne hin
        obtain ⟨bg, hbg⟩ := hm1 hin
        exact ⟨bg, hp2 bg hbg⟩

/-- C8: within a frame whose extracted list mentions one texture identity
at least twice, queuing (running with a view-uniform binding and at least
one view) leaves exactly one cache entry for that identity — one bind
group created, not two — and the cache is monotone: an identity already
mapped to a bind group still maps to the same bind group afterwards. -/
theorem c8_cache_unique_and_monotone (vb : Bool) (gpu_images : ℕ → Option ℕ)
    (draw_fn pipeline_id : ℕ) (c : ImageBindGroups)
    (sprites : List (ℕ × ExtractedSprite)) (views : List (List Transparent2d))
    (out : QueueOutput) (hA hB bg : ℕ)
    (hq : queue_sprites vb gpu_images draw_fn pipeline_id c sprites views = some out) :
    (vb = true → views ≠ [] → 2 ≤ (sprites.map (fun p => p.2.handle)).count hA →
      countKey c.values hA = 0 → countKey out.cache.values hA = 1) ∧
    (cacheLookup c.values hB = some bg → cacheLookup out.cache.values hB = some bg) := by
  cases vb
  · rw [queue_sprites] at hq
    simp at hq
    constructor
    · intro hfalse
      cases hfalse
    · intro hl
      rw [← hq]
      exact hl
  · rw [queue_sprites] at hq
    simp only [if_true] at hq
    cases hloop : queueViewsLoop gpu_images draw_fn pipeline_id sprites c views with
    | none => rw [hloop] at hq; cases hq
    | some pr =>
      obtain ⟨cfin, phasesfin⟩ := pr
      rw [hloop] at hq
      cases hq
      obtain ⟨hpres, hcount, hmem⟩ := queueViewsLoop_cache gpu_images draw_fn pipeline_id
        sprites views c cfin phasesfin hA hloop
      constructor
      · intro _ hne hcnt hzero
        have hin : hA ∈ sprites.map (fun p => p.2.handle) :=
          List.count_pos_iff.mp (lt_of_lt_of_le (by norm_num) hcnt)
        obtain ⟨bg2, hbg2⟩ := hmem hne hin
        have hle : countKey cfin.values hA ≤ 1 := hcount (by omega)
        have hge : 1 ≤ countKey cfin.values hA := cacheLookup_some_countKey_pos _ _ _ hbg2
        show countKey cfin.values hA = 1
        omega
      · intro hl
        obtain ⟨hpresB, h2, h3⟩ := queueViewsLoop_cache gpu_images draw_fn pipeline_id
          sprites views c cfin phasesfin hB hloop
        exact hpresB bg hl

def c8Sprite : ExtractedSprite :=
  { transform := Mat4.identityM
    rect := { min := ⟨0, 0⟩, max := ⟨1, 1⟩ }
    handle := 5
    atlas_size := none
    vertex_index := 0 }

def c8Cache : ImageBindGroups := { values := [(9, 42)], fresh := 1 }

def c8Sprites : List (ℕ × ExtractedSprite) := [(0, c8Sprite), (1, c8Sprite)]

def c8Out : QueueOutput :=
  { cache := { values := [(9, 42), (5, 1)], fresh := 2 }
    phases := [[{ draw_function := 100, pipeline := 200, entity := 0, sort_key := 5 },
                { draw_function := 100, pipeline := 200, entity := 1, sort_key := 5 }]]
    viewBindGroupBuilt := true }

theorem c8_witness :
    countKey c8Out.cache.values 5 = 1 ∧ cacheLookup c8Out.cache.values 9 = some 42 := by
  have h := c8_cache_unique_and_monotone true (fun _ => some 0) 100 200 c8Cache c8Sprites
    [[]] c8Out 5 9 42 (by decide)
  exact ⟨h.1 rfl (by decide) (by decide) (by decide), h.2 (by decide)⟩
